import Mathlib

/-!
Verification of the azure-ai-search-pipeline repository.

Python strings are modelled as lists of characters, floats as rationals,
dictionaries as association lists (PyDict), and the external Azure services as
oracle functions passed in as parameters.  Fallible calls return an Option,
with a caught exception modelled as the absent value.
-/

/-- Python whitespace test for the default argument of str.strip (ASCII part). -/
def isPySpace (c : Char) : Bool :=
  c == ' ' || c == '\t' || c == '\n' || c == '\r' || c == '\x0b' || c == '\x0c'

/-- Python str.strip with no argument: drop leading and trailing whitespace. -/
def pyStrip (s : List Char) : List Char :=
  (((s.dropWhile isPySpace).reverse.dropWhile isPySpace)).reverse

/-- Lowercase a string character by character, modelling Python str.lower on ASCII. -/
def toLowerStr (s : List Char) : List Char := s.map Char.toLower

/-- takeEq p l is true when p occurs at the very start of l
    (the take has the same length as p only when p fits). -/
def takeEq (p l : List Char) : Bool := l.take p.length == p

/-- Python str.find: index of the first occurrence of needle in hay, none when absent. -/
def str_find (hay needle : List Char) : Option Nat :=
  (List.range (hay.length + 1)).find? (fun i => takeEq needle (hay.drop i))

/-- A Python value stored in a document dictionary: a string, a list of floats,
    or an integer. -/
inductive PyVal where
  | str : List Char → PyVal
  | vec : List ℚ → PyVal
  | intV : Int → PyVal
deriving DecidableEq

/-- Python truthiness of a PyVal: empty strings and lists and zero are falsy. -/
def pyTruthy : PyVal → Bool
  | .str s => !s.isEmpty
  | .vec v => !v.isEmpty
  | .intV n => n != 0

/-- A Python dict from field names to values, as an association list. -/
abbrev PyDict := List (String × PyVal)

/-- Dict lookup: doc[k] when present. -/
def dictGet (d : PyDict) (k : String) : Option PyVal := d.lookup k

/-- Python dict item assignment d[k] = v: replace the value when the key is
    present, append the pair otherwise. -/
def dictInsert (d : PyDict) (k : String) (v : PyVal) : PyDict :=
  if d.any (fun p => p.1 == k) then
    d.map (fun p => if p.1 == k then (k, v) else p)
  else
    d ++ [(k, v)]

/-- src/config/settings.py: ProcessingConfig.vector_dimensions. -/
def vector_dimensions : Nat := 1536

/-- src/config/settings.py: ProcessingConfig.batch_size. -/
def batch_size : Nat := 10

/-- src/config/settings.py: AzureConfig.search_index_name. -/
def search_index_name : String := "library"

/-- src/search/index_manager.py IndexManager._validate_single_document:
    the id and content fields must be present and truthy; when content_vector is
    present it must be a list of length vector_dimensions. -/
def validate_single_document (doc : PyDict) : Bool :=
  match dictGet doc "id" with
  | none => false
  | some v =>
    if !pyTruthy v then false
    else
      match dictGet doc "content" with
      | none => false
      | some c =>
        if !pyTruthy c then false
        else
          match dictGet doc "content_vector" with
          | none => true
          | some (.vec l) => l.length == vector_dimensions
          | some _ => false

/-- src/search/index_manager.py IndexManager._validate_documents:
    keep exactly the documents that pass validation. -/
def validate_documents (documents : List PyDict) : List PyDict :=
  documents.filter validate_single_document

/-- src/search/index_manager.py IndexManager.upload_documents.
    The search service is an oracle mapping the uploaded batch to per-document
    success flags (none models a raised exception).  The second component of the
    result records every batch actually sent to the service. -/
def upload_documents (service : List PyDict → Option (List Bool))
    (documents : List PyDict) : Bool × List (List PyDict) :=
  if documents.isEmpty then (true, [])
  else
    let valid_docs := validate_documents documents
    if valid_docs.isEmpty then (false, [])
    else
      match service valid_docs with
      | none => (false, [valid_docs])
      | some results => (results.all (fun r => r), [valid_docs])

/-- src/core/embedding_generator.py EmbeddingGenerator._truncate_text:
    keep at most max_tokens * 4 characters, taking the text as is when it fits
    and its character head otherwise. -/
def truncate_text (text : List Char) (max_tokens : Nat) : List Char :=
  if text.length ≤ max_tokens * 4 then text else text.take (max_tokens * 4)

/-- The string actually handed to the embeddings service by
    EmbeddingGenerator.generate_embedding: none on the empty or whitespace-only
    guard, otherwise the truncated text stripped of surrounding whitespace
    (the source passes text.strip() as the request input after truncating). -/
def embedding_request_input (text : List Char) : Option (List Char) :=
  if text.isEmpty || (pyStrip text).isEmpty then none
  else some (pyStrip (truncate_text text 8191))

/-- src/core/embedding_generator.py EmbeddingGenerator.generate_embedding.
    The embeddings service is an oracle from the request input to an optional
    vector; a raised exception is modelled by none and is caught, returning
    none. -/
def generate_embedding (svc : List Char → Option (List ℚ)) (text : List Char) :
    Option (List ℚ) :=
  match embedding_request_input text with
  | none => none
  | some t => svc t

/-- Component check used by validate_embedding: strictly between -1e6 and 1e6.
    A float NaN fails both Python comparisons and is likewise rejected. -/
def saneComponent (v : ℚ) : Bool :=
  decide ((-1000000 : ℚ) < v ∧ v < (1000000 : ℚ))

/-- src/core/embedding_generator.py EmbeddingGenerator.validate_embedding:
    nonempty, of the configured dimension, with every component in range.
    No code in the repository calls this function. -/
def validate_embedding (embedding : List ℚ) : Bool :=
  if embedding.isEmpty then false
  else if embedding.length != vector_dimensions then false
  else if embedding.any (fun v => !saneComponent v) then false
  else true

/-- Inner loop of EmbeddingGenerator.generate_batch_embeddings: process the
    items in batches of bsz, appending the per-item results in order.  The fuel
    argument bounds the number of batches; it is instantiated with the number
    of items, enough whenever bsz is positive (a zero step raises in Python). -/
def generate_batch_aux {α β : Type} (gen : α → β) (bsz : Nat) :
    Nat → List α → List β
  | 0, _ => []
  | _, [] => []
  | fuel + 1, t :: ts =>
    ((t :: ts).take bsz).map gen ++ generate_batch_aux gen bsz fuel ((t :: ts).drop bsz)

/-- src/core/embedding_generator.py EmbeddingGenerator.generate_batch_embeddings:
    one optional embedding per input text, batch by batch (the inter-request
    and inter-batch sleeps do not affect the produced values). -/
def generate_batch_embeddings (svc : List Char → Option (List ℚ))
    (texts : List (List Char)) (bsz : Nat) : List (Option (List ℚ)) :=
  generate_batch_aux (generate_embedding svc) bsz texts.length texts

/-- The value doc.get with key content and default the empty string, as read by
    EmbeddingGenerator.add_embeddings_to_documents. -/
def doc_content_val (doc : PyDict) : PyVal :=
  (dictGet doc "content").getD (.str [])

/-- generate_embedding applied to a content value.  A non-string value makes
    the Python call raise inside the try block of generate_embedding (or hit
    the falsy guard), so every non-string content yields none. -/
def embed_content_value (svc : List Char → Option (List ℚ)) : PyVal → Option (List ℚ)
  | .str s => generate_embedding svc s
  | _ => none

/-- The batch-embedding loop of add_embeddings_to_documents applied to the raw
    content values of the documents, mirroring generate_batch_embeddings. -/
def generate_batch_embeddings_vals (svc : List Char → Option (List ℚ))
    (vals : List PyVal) (bsz : Nat) : List (Option (List ℚ)) :=
  generate_batch_aux (embed_content_value svc) bsz vals.length vals

/-- The mutable heap of document dictionaries: documents are referenced by
    index, and allocating a copy appends a new dictionary. -/
abbrev Store := List PyDict

/-- Dereference a document; a dangling reference yields the empty dict. -/
def storeGet (store : Store) (r : Nat) : PyDict := store.getD r []

/-- Loop body of EmbeddingGenerator.add_embeddings_to_documents over the zipped
    (document reference, optional embedding) pairs: a present embedding
    allocates doc.copy() with content_vector set and collects a reference to
    the fresh copy; an absent embedding skips the document. -/
def add_embeddings_aux (store : Store) :
    List (Nat × Option (List ℚ)) → Store × List Nat
  | [] => (store, [])
  | (_, none) :: rest => add_embeddings_aux store rest
  | (r, some e) :: rest =>
    let newDoc := dictInsert (storeGet store r) "content_vector" (.vec e)
    let res := add_embeddings_aux (store ++ [newDoc]) rest
    (res.1, store.length :: res.2)

/-- src/core/embedding_generator.py EmbeddingGenerator.add_embeddings_to_documents:
    embed the content of each referenced document in batches, then return the
    references of the enhanced copies together with the extended store. -/
def add_embeddings_to_documents (svc : List Char → Option (List ℚ))
    (store : Store) (refs : List Nat) (bsz : Nat) : Store × List Nat :=
  add_embeddings_aux store
    (refs.zip (generate_batch_embeddings_vals svc (refs.map (fun r => doc_content_val (storeGet store r))) bsz))

/-- The three-dot ellipsis appended and prepended by the snippet code. -/
def ellipsis : List Char := ['.', '.', '.']

/-- src/search/interactive_search.py
    InteractiveSearchInterface._extract_contextual_snippet: window of
    context_length div 2 characters on each side of the first case-insensitive
    occurrence of the query, with ellipses where the window stops short of a
    text boundary, and the head of the content when the query is absent. -/
def extract_contextual_snippet (content query : List Char) (context_length : Nat) :
    List Char :=
  if content.isEmpty || query.isEmpty then
    if 150 < content.length then content.take 150 ++ ellipsis else content
  else
    match str_find (toLowerStr content) (toLowerStr query) with
    | none =>
      if 150 < content.length then content.take 150 ++ ellipsis else content
    | some idx =>
      let start := idx - context_length / 2
      let stop := min content.length (idx + query.length + context_length / 2)
      let snippet := (content.take stop).drop start
      let s1 := if 0 < start then ellipsis ++ snippet else snippet
      if stop < content.length then s1 ++ ellipsis else s1

/-- containsSub big small holds when small occurs contiguously inside big. -/
def containsSub (big small : List Char) : Prop :=
  ∃ p s, big = p ++ small ++ s

/-- src/search/interactive_search.py InteractiveSearchInterface._display_highlights:
    of the first three highlight entries, print the stripped form of every
    entry that is neither null nor empty nor whitespace-only. -/
def display_highlights (highlights : List (Option (List Char))) : List (List Char) :=
  (highlights.take 3).filterMap (fun h =>
    match h with
    | none => none
    | some s => if (pyStrip s).isEmpty then none else some (pyStrip s))

/-- Decimal digits of a natural number, modelling the Python rendering of the
    item counter inside file and document names. -/
def natChars (n : Nat) : List Char := Nat.toDigits 10 n

/-- The name of the scratch file tempfile.NamedTemporaryFile creates for item i
    in FileManager.create_temp_file: the doc_i_ head, a random part given by
    the oracle sfx, and the .pdf tail. -/
def temp_name (sfx : Nat → List Char) (i : Nat) : List Char :=
  "doc_".toList ++ natChars i ++ "_".toList ++ sfx i ++ ".pdf".toList

/-- The local filesystem as the list of present file names. -/
abbrev FS := List (List Char)

/-- Whether a name matches the glob pattern doc_*.pdf used by
    DocumentProcessor.cleanup_temp_files: it starts with doc_ and ends
    with .pdf. -/
def glob_doc_pdf (name : List Char) : Bool :=
  takeEq "doc_".toList name && takeEq ".pdf".toList.reverse name.reverse

/-- src/utils/file_utils.py FileManager.cleanup_temp_files with the doc_*.pdf
    pattern: unlink every matching file in the base directory. -/
def cleanup_temp_files (fs : FS) : FS :=
  fs.filter (fun f => !glob_doc_pdf f)

/-- The document dictionary built for item i by
    DocumentProcessor.process_documents_batch, with the product name as Python
    computes it (an oracle, since it can be the title metadata, the fallback
    string, or a None title value) and the processed_at timestamp an oracle. -/
def make_doc (product_name : Nat → PyVal) (ts : Nat → List Char)
    (i : Nat) (url text tf : List Char) : PyDict :=
  [("id", .str ("doc_".toList ++ natChars i)),
   ("content", .str text),
   ("product_name", product_name i),
   ("filename", .str ("doc_".toList ++ natChars i ++ ".pdf".toList)),
   ("filepath", .str tf),
   ("document_url", .str url),
   ("content_length", .intV text.length),
   ("processed_at", .str (ts i))]

/-- Per-item loop of DocumentProcessor.process_documents_batch starting at item
    number i.  Each item first creates its temporary file; the oracle download
    says whether download_document succeeds, and extract gives the text of
    extract_content (none for a raised or failed extraction).  On download
    failure, empty or failed extraction, or an item-level exception the loop
    continues; the finally block is pass, so no path removes the file. -/
def process_items (download : Nat → Bool) (extract : Nat → Option (List Char))
    (product_name : Nat → PyVal) (ts sfx : Nat → List Char) :
    Nat → List (List Char) → FS → FS × List PyDict
  | _, [], fs => (fs, [])
  | i, url :: rest, fs =>
    let tf := temp_name sfx i
    let fs1 := fs ++ [tf]
    let step : Option PyDict :=
      if !download i then none
      else
        match extract i with
        | none => none
        | some t => if t.isEmpty then none else some (make_doc product_name ts i url t tf)
    let res := process_items download extract product_name ts sfx (i + 1) rest fs1
    match step with
    | none => (res.1, res.2)
    | some doc => (res.1, doc :: res.2)

/-- src/core/document_processor.py DocumentProcessor.process_documents_batch:
    enumerate the urls from 1 and return the updated filesystem together with
    the successfully processed documents in input order. -/
def process_documents_batch (download : Nat → Bool) (extract : Nat → Option (List Char))
    (product_name : Nat → PyVal) (ts sfx : Nat → List Char)
    (urls : List (List Char)) (fs : FS) : FS × List PyDict :=
  process_items download extract product_name ts sfx 1 urls fs

/-- The outcome the backing search service reports for the single
    create_or_update_index request: success, the vector-algorithm
    incompatibility rejection, or any other error. -/
inductive IndexServiceOutcome where
  | ok
  | schemaIncompatible
  | otherError
deriving DecidableEq

/-- Field description in IndexManager._define_index_fields. -/
structure IndexFieldSpec where
  name : String
  isKey : Bool
  filterable : Bool
  sortable : Bool
  facetable : Bool
  searchable : Bool
  vectorDims : Option Nat
deriving DecidableEq

/-- src/search/index_manager.py IndexManager._define_index_fields. -/
def define_index_fields : List IndexFieldSpec :=
  [⟨"id", true, true, true, false, false, none⟩,
   ⟨"content", false, false, false, false, true, none⟩,
   ⟨"product_name", false, true, true, true, false, none⟩,
   ⟨"filename", false, true, true, true, false, none⟩,
   ⟨"filepath", false, true, false, false, false, none⟩,
   ⟨"document_url", false, true, false, false, false, none⟩,
   ⟨"content_length", false, true, true, false, false, none⟩,
   ⟨"processed_at", false, true, true, false, false, none⟩,
   ⟨"content_vector", false, false, false, false, true, some vector_dimensions⟩]

/-- src/search/index_manager.py IndexManager.create_or_update_index: build the
    schema, issue exactly one create-or-update request for it, and return True
    on success; every exception, the schema-incompatibility rejection included,
    is caught and turned into the same plain False.  The second component
    records the index-mutation requests issued. -/
def create_or_update_index (outcome : IndexServiceOutcome) :
    Bool × List (String × List IndexFieldSpec) :=
  (match outcome with
   | .ok => true
   | .schemaIncompatible => false
   | .otherError => false,
   [(search_index_name, define_index_fields)])

/-! Helper lemmas shared by the claim theorems. -/

theorem generate_batch_aux_eq_map {α β : Type} (gen : α → β) (bsz : Nat)
    (hbsz : 0 < bsz) :
    ∀ (fuel : Nat) (l : List α), l.length ≤ fuel →
      generate_batch_aux gen bsz fuel l = l.map gen := by
  intro fuel
  induction fuel with
  | zero =>
    intro l hl
    have : l = [] := List.eq_nil_of_length_eq_zero (Nat.le_zero.mp hl)
    subst this
    rfl
  | succ n ih =>
    intro l hl
    cases l with
    | nil => rfl
    | cons t ts =>
      have hdrop : ((t :: ts).drop bsz).length ≤ n := by
        simp only [List.length_drop, List.length_cons]
        simp only [List.length_cons] at hl
        omega
      rw [generate_batch_aux, ih _ hdrop, ← List.map_append, List.take_append_drop]

theorem storeGet_append_left (store ext : Store) (r : Nat) (h : r < store.length) :
    storeGet (store ++ ext) r = storeGet store r := by
  unfold storeGet
  rw [List.getD_eq_getElem?_getD, List.getD_eq_getElem?_getD,
    List.getElem?_append_left h]

theorem storeGet_append_self (store : Store) (d : PyDict) (ext : Store) :
    storeGet (store ++ d :: ext) store.length = d := by
  unfold storeGet
  rw [List.getD_eq_getElem?_getD, List.getElem?_append_right (Nat.le_refl _)]
  simp

theorem add_embeddings_aux_spec :
    ∀ (pairs : List (Nat × Option (List ℚ))) (store : Store),
      (∀ p ∈ pairs, p.1 < store.length) →
      (∃ ext, (add_embeddings_aux store pairs).1 = store ++ ext) ∧
      ((add_embeddings_aux store pairs).2).map
          (fun r => storeGet (add_embeddings_aux store pairs).1 r)
        = pairs.filterMap (fun p =>
            (p.2).map (fun e => dictInsert (storeGet store p.1) "content_vector" (.vec e))) := by
  intro pairs
  induction pairs with
  | nil =>
    intro store _
    exact ⟨⟨[], by simp [add_embeddings_aux]⟩, by simp [add_embeddings_aux]⟩
  | cons p rest ih =>
    intro store h
    obtain ⟨r, oe⟩ := p
    have h' : ∀ q ∈ rest, q.1 < store.length :=
      fun q hq => h q (List.mem_cons_of_mem _ hq)
    cases oe with
    | none =>
      simpa [add_embeddings_aux] using ih store h'
    | some e =>
      have hr : r < store.length := h (r, some e) (List.mem_cons_self _ _)
      have h'' : ∀ q ∈ rest,
          q.1 < (store ++ [dictInsert (storeGet store r) "content_vector" (.vec e)]).length := by
        intro q hq
        have := h' q hq
        simp only [List.length_append, List.length_cons, List.length_nil]
        omega
      obtain ⟨⟨ext, hext⟩, hmap⟩ :=
        ih (store ++ [dictInsert (storeGet store r) "content_vector" (.vec e)]) h''
      have hfst : (add_embeddings_aux store ((r, some e) :: rest)).1
          = store ++ dictInsert (storeGet store r) "content_vector" (.vec e) :: ext := by
        simp only [add_embeddings_aux]
        rw [hext, List.append_assoc]
        rfl
      refine ⟨⟨dictInsert (storeGet store r) "content_vector" (.vec e) :: ext, hfst⟩, ?_⟩
      have hsnd : (add_embeddings_aux store ((r, some e) :: rest)).2
          = store.length
            :: (add_embeddings_aux
                (store ++ [dictInsert (storeGet store r) "content_vector" (.vec e)]) rest).2 := by
        simp only [add_embeddings_aux]
      rw [hsnd, List.map_cons, hfst, storeGet_append_self]
      have htail :
          ((add_embeddings_aux
              (store ++ [dictInsert (storeGet store r) "content_vector" (.vec e)]) rest).2).map
            (fun q => storeGet
              (store ++ dictInsert (storeGet store r) "content_vector" (.vec e) :: ext) q)
          = rest.filterMap (fun q =>
              (q.2).map (fun e2 =>
                dictInsert (storeGet (store ++ [dictInsert (storeGet store r) "content_vector" (.vec e)]) q.1)
                  "content_vector" (.vec e2))) := by
        have : store ++ dictInsert (storeGet store r) "content_vector" (.vec e) :: ext
            = (store ++ [dictInsert (storeGet store r) "content_vector" (.vec e)]) ++ ext := by
          rw [List.append_assoc]
          rfl
        rw [this, ← hext]
        exact hmap
      rw [htail]
      have hcongr : rest.filterMap (fun q =>
            (q.2).map (fun e2 =>
              dictInsert (storeGet (store ++ [dictInsert (storeGet store r) "content_vector" (.vec e)]) q.1)
                "content_vector" (.vec e2)))
          = rest.filterMap (fun q =>
              (q.2).map (fun e2 =>
                dictInsert (storeGet store q.1) "content_vector" (.vec e2))) := by
        apply List.filterMap_congr
        intro q hq
        rw [storeGet_append_left _ _ _ (h' q hq)]
      rw [hcongr]
      simp [List.filterMap_cons]

theorem process_items_fst (download : Nat → Bool) (extract : Nat → Option (List Char))
    (product_name : Nat → PyVal) (ts sfx : Nat → List Char) :
    ∀ (urls : List (List Char)) (i : Nat) (fs : FS),
      (process_items download extract product_name ts sfx i urls fs).1
        = fs ++ (List.range urls.length).map (fun k => temp_name sfx (i + k)) := by
  intro urls
  induction urls with
  | nil => intro i fs; simp [process_items]
  | cons url rest ih =>
    intro i fs
    have hbody : (process_items download extract product_name ts sfx i (url :: rest) fs).1
        = (process_items download extract product_name ts sfx (i + 1) rest
            (fs ++ [temp_name sfx i])).1 := by
      simp only [process_items]
      cases hdl : download i with
      | false => simp
      | true =>
        cases hex : extract i with
        | none => simp
        | some t => cases t <;> simp
    rw [hbody, ih, List.append_assoc]
    congr 1
    rw [List.length_cons, List.range_succ_eq_map, List.map_cons, List.map_map]
    have harg : ((fun k => temp_name sfx (i + k)) ∘ Nat.succ)
        = (fun k => temp_name sfx (i + 1 + k)) := by
      funext k
      simp only [Function.comp_apply]
      congr 1
      omega
    rw [harg]
    simp

theorem takeEq_append (p r : List Char) : takeEq p (p ++ r) = true := by
  unfold takeEq
  rw [List.take_left]
  exact beq_self_eq_true _

theorem glob_doc_pdf_temp_name (sfx : Nat → List Char) (i : Nat) :
    glob_doc_pdf (temp_name sfx i) = true := by
  have hsplit : temp_name sfx i
      = ("doc_".toList ++ (natChars i ++ ("_".toList ++ sfx i))) ++ ".pdf".toList := by
    simp [temp_name, List.append_assoc]
  rw [glob_doc_pdf, hsplit]
  simp [takeEq_append, takeEq, List.append_assoc]

theorem str_find_occurrence (hay needle : List Char) (idx : Nat)
    (h : str_find hay needle = some idx) :
    (hay.drop idx).take needle.length = needle ∧ idx + needle.length ≤ hay.length := by
  have hp := List.find?_some h
  have hm := List.mem_of_find?_eq_some h
  rw [List.mem_range] at hm
  unfold takeEq at hp
  have heq : (hay.drop idx).take needle.length = needle := eq_of_beq hp
  refine ⟨heq, ?_⟩
  have hlen := congrArg List.length heq
  rw [List.length_take, List.length_drop] at hlen
  omega

theorem take_drop_window (L Q : List Char) (idx start stop : Nat)
    (hstart : start ≤ idx) (hstop : idx + Q.length ≤ stop)
    (hocc : (L.drop idx).take Q.length = Q) :
    ∃ p s, (L.take stop).drop start = p ++ Q ++ s := by
  refine ⟨((L.take stop).drop start).take (idx - start),
    ((L.drop idx).drop Q.length).take (stop - idx - Q.length), ?_⟩
  have h1 : (L.take stop).drop start
      = ((L.take stop).drop start).take (idx - start)
        ++ ((L.take stop).drop start).drop (idx - start) :=
    (List.take_append_drop _ _).symm
  have h2 : ((L.take stop).drop start).drop (idx - start) = (L.take stop).drop idx := by
    rw [List.drop_drop]
    congr 1
    omega
  have h3 : (L.take stop).drop idx = (L.drop idx).take (stop - idx) :=
    List.drop_take stop idx L
  have h4 : (L.drop idx).take (stop - idx)
      = Q ++ ((L.drop idx).drop Q.length).take (stop - idx - Q.length) := by
    have hsum : stop - idx = Q.length + (stop - idx - Q.length) := by omega
    rw [hsum, List.take_add, hocc]
    congr 2
    omega
  conv_lhs => rw [h1, h2, h3, h4]
  rw [List.append_assoc]

/-! Claim theorems. -/

/-- Claim C1: a document is in the set sent to the index by upload_documents
    exactly when its id field is present and non-empty, its content field is
    present and non-empty, and any present content_vector is a list of the
    configured dimension; the invalid documents are excluded while the valid
    ones are still submitted. -/
theorem upload_documents_sends_exactly_valid
    (service : List PyDict → Option (List Bool)) (documents : List PyDict) :
    ((upload_documents service documents).2.flatten = validate_documents documents) ∧
    (∀ d, d ∈ (upload_documents service documents).2.flatten
        ↔ d ∈ documents ∧ validate_single_document d = true) ∧
    (∀ doc : PyDict, validate_single_document doc = true ↔
      ((∃ v, dictGet doc "id" = some v ∧ pyTruthy v = true) ∧
       (∃ c, dictGet doc "content" = some c ∧ pyTruthy c = true) ∧
       (∀ w, dictGet doc "content_vector" = some w →
         ∃ l, w = PyVal.vec l ∧ l.length = vector_dimensions))) := by
  have hjoin : (upload_documents service documents).2.flatten = validate_documents documents := by
    rw [upload_documents]
    cases hd : documents.isEmpty with
    | true =>
      have hnil : documents = [] := by
        cases documents with
        | nil => rfl
        | cons a l => simp at hd
      subst hnil
      simp [validate_documents]
    | false =>
      simp only [hd, Bool.false_eq_true, if_false]
      cases hv : (validate_documents documents).isEmpty with
      | true =>
        have hvnil : validate_documents documents = [] := by
          cases hval : validate_documents documents with
          | nil => rfl
          | cons a l => rw [hval] at hv; simp at hv
        simp [hv, hvnil]
      | false =>
        cases hs : service (validate_documents documents) with
        | none => simp [hv, hs]
        | some results => simp [hv, hs]
  refine ⟨hjoin, ?_, ?_⟩
  · intro d
    rw [hjoin, validate_documents, List.mem_filter]
  · intro doc
    cases hid : dictGet doc "id" with
    | none => simp [validate_single_document, hid]
    | some v =>
      cases htv : pyTruthy v with
      | false => simp [validate_single_document, hid, htv]
      | true =>
        cases hct : dictGet doc "content" with
        | none => simp [validate_single_document, hid, htv, hct]
        | some c =>
          cases htc : pyTruthy c with
          | false => simp [validate_single_document, hid, htv, hct, htc]
          | true =>
            cases hcv : dictGet doc "content_vector" with
            | none => simp [validate_single_document, hid, htv, hct, htc, hcv]
            | some w =>
              cases w with
              | str s => simp [validate_single_document, hid, htv, hct, htc, hcv]
              | vec l => simp [validate_single_document, hid, htv, hct, htc, hcv]
              | intV n => simp [validate_single_document, hid, htv, hct, htc, hcv]

/-- Witness for C1 at a two-document input with one invalid document. -/
theorem upload_documents_sends_exactly_valid_witness :
    ((upload_documents (fun _ => some [true])
        [[("id", PyVal.str ['a']), ("content", PyVal.str ['x'])],
         [("id", PyVal.str [])]]).2.flatten
      = validate_documents
          [[("id", PyVal.str ['a']), ("content", PyVal.str ['x'])],
           [("id", PyVal.str [])]]) ∧
    validate_documents
        [[("id", PyVal.str ['a']), ("content", PyVal.str ['x'])],
         [("id", PyVal.str [])]]
      = [[("id", PyVal.str ['a']), ("content", PyVal.str ['x'])]] :=
  ⟨(upload_documents_sends_exactly_valid _ _).1, by decide⟩

/-- Claim C9: an empty document list makes upload_documents return True with
    no service call, while a non-empty list whose documents all fail
    validation makes it return False, still with no service call. -/
theorem upload_documents_empty_vs_all_invalid :
    (∀ service : List PyDict → Option (List Bool),
      upload_documents service [] = (true, [])) ∧
    (∀ (service : List PyDict → Option (List Bool)) (documents : List PyDict),
      documents ≠ [] → validate_documents documents = [] →
      upload_documents service documents = (false, [])) := by
  constructor
  · intro service
    rfl
  · intro service documents hne hval
    rw [upload_documents]
    have hd : documents.isEmpty = false := by
      cases documents with
      | nil => exact absurd rfl hne
      | cons a l => rfl
    simp [hd, hval]

/-- Witness for C9 at the empty input and at a one-document all-invalid input. -/
theorem upload_documents_empty_vs_all_invalid_witness :
    upload_documents (fun _ => some []) [] = (true, []) ∧
    ([[("id", PyVal.str [])]] ≠ ([] : List PyDict) ∧
     validate_documents [[("id", PyVal.str [])]] = [] ∧
     upload_documents (fun _ => some []) [[("id", PyVal.str [])]] = (false, [])) :=
  ⟨upload_documents_empty_vs_all_invalid.1 _,
   by decide, by decide,
   upload_documents_empty_vs_all_invalid.2 _ _ (by decide) (by decide)⟩

/-- Claim C7 counterexample: on the schema-incompatibility rejection,
    create_or_update_index returns exactly what it returns on any other
    failure, a plain False, so no distinct schema-incompatible condition is
    surfaced to the caller. -/
theorem schema_incompatible_not_distinct_cex :
    create_or_update_index IndexServiceOutcome.schemaIncompatible
      = create_or_update_index IndexServiceOutcome.otherError ∧
    (create_or_update_index IndexServiceOutcome.schemaIncompatible).1 = false :=
  ⟨rfl, rfl⟩

/-- Claim C7 (amended): create_or_update_index issues exactly one
    create-or-update request for the declared schema and returns True only on
    success; the schema-incompatibility rejection is caught like every other
    exception and collapsed to the same False, with no further mutation
    attempt. -/
theorem create_or_update_index_failure_collapsed (outcome : IndexServiceOutcome) :
    ((create_or_update_index outcome).1 = true ↔ outcome = IndexServiceOutcome.ok) ∧
    (create_or_update_index outcome).2 = [(search_index_name, define_index_fields)] := by
  cases outcome <;> simp [create_or_update_index]

/-- Witness for the amended C7 at the schema-incompatible outcome. -/
theorem create_or_update_index_failure_collapsed_witness :
    ((create_or_update_index IndexServiceOutcome.schemaIncompatible).1 = true
      ↔ IndexServiceOutcome.schemaIncompatible = IndexServiceOutcome.ok) ∧
    (create_or_update_index IndexServiceOutcome.schemaIncompatible).2
      = [(search_index_name, define_index_fields)] :=
  create_or_update_index_failure_collapsed IndexServiceOutcome.schemaIncompatible

/-- Claim C2: generate_batch_embeddings returns exactly one entry per input
    text, positionally aligned: entry i is generate_embedding applied to text
    i alone (none when that call fails), so a failure for one text never
    affects the entry of any other text in the same or a later batch. -/
theorem generate_batch_embeddings_aligned
    (svc : List Char → Option (List ℚ)) (texts : List (List Char)) (bsz : Nat)
    (hbsz : 0 < bsz) :
    (generate_batch_embeddings svc texts bsz).length = texts.length ∧
    ∀ i : Nat, (generate_batch_embeddings svc texts bsz)[i]?
      = (texts[i]?).map (generate_embedding svc) := by
  have hmap : generate_batch_embeddings svc texts bsz
      = texts.map (generate_embedding svc) :=
    generate_batch_aux_eq_map _ _ hbsz _ _ (Nat.le_refl _)
  refine ⟨?_, ?_⟩
  · rw [hmap, List.length_map]
  · intro i
    rw [hmap, List.getElem?_map]

/-- Witness for C2: five texts in batches of two with the third text failing;
    the result still has five entries and slot 2 alone is absent. -/
theorem generate_batch_embeddings_aligned_witness :
    (generate_batch_embeddings
        (fun t => if t == "bad".toList then none else some [(1 : ℚ)])
        ["aa".toList, "bb".toList, "bad".toList, "dd".toList, "ee".toList] 2).length = 5 ∧
    (generate_batch_embeddings
        (fun t => if t == "bad".toList then none else some [(1 : ℚ)])
        ["aa".toList, "bb".toList, "bad".toList, "dd".toList, "ee".toList] 2)[2]?
      = some none := by
  have h := generate_batch_embeddings_aligned
    (fun t => if t == "bad".toList then none else some [(1 : ℚ)])
    ["aa".toList, "bb".toList, "bad".toList, "dd".toList, "ee".toList] 2 (by decide)
  refine ⟨h.1, ?_⟩
  rw [h.2 2]
  decide

/-- Claim C8: the highlight display shows at most the first three highlight
    entries, each stripped of surrounding whitespace, and skips entries that
    are null or empty (or whitespace-only) among those first three. -/
theorem display_highlights_first3_trimmed (hs : List (Option (List Char))) :
    (display_highlights hs).length ≤ 3 ∧
    display_highlights hs
      = ((hs.take 3).filterMap (fun o => o.map pyStrip)).filter (fun s => !s.isEmpty) ∧
    ∀ s ∈ display_highlights hs, s ≠ [] ∧ ∃ t, some t ∈ hs.take 3 ∧ s = pyStrip t := by
  have heq : display_highlights hs
      = ((hs.take 3).filterMap (fun o => o.map pyStrip)).filter (fun s => !s.isEmpty) := by
    rw [display_highlights]
    generalize hs.take 3 = l
    induction l with
    | nil => rfl
    | cons o rest ih =>
      cases o with
      | none => simpa [List.filterMap_cons] using ih
      | some s =>
        cases hse : (pyStrip s).isEmpty with
        | true =>
          have hnil : pyStrip s = [] := by simpa using hse
          simp [List.filterMap_cons, hnil]
          simpa using ih
        | false =>
          have hnil : ¬pyStrip s = [] := by simpa using hse
          simp [List.filterMap_cons, hnil, hse]
          simpa using ih
  refine ⟨?_, heq, ?_⟩
  · have h1 : (display_highlights hs).length ≤ (hs.take 3).length :=
      List.length_filterMap_le _ _
    exact le_trans h1 (List.length_take_le _ _)
  · intro s hsmem
    rw [heq, List.mem_filter] at hsmem
    obtain ⟨hmem, hne⟩ := hsmem
    rw [List.mem_filterMap] at hmem
    obtain ⟨o, ho, hmap⟩ := hmem
    cases o with
    | none => simp at hmap
    | some t =>
      simp only [Option.map_some'] at hmap
      rw [Option.some_inj] at hmap
      refine ⟨?_, t, ho, hmap.symm⟩
      intro hnil
      rw [hnil] at hne
      simp at hne

/-- Helper: a list whose zip partner is its own map pairs each element with
    its image. -/
theorem zip_self_map {α β : Type} (l : List α) (f : α → β) :
    l.zip (l.map f) = l.map (fun a => (a, f a)) := by
  induction l with
  | nil => rfl
  | cons a t ih => simp [ih]

/-- Claim C6 counterexample: a one-item run whose download and extraction both
    succeed finishes with the downloaded temporary file still present in the
    filesystem, so the temporary file is not removed when the item completes
    and a transient downloaded file persists after the pipeline finishes. -/
theorem temp_file_persists_cex :
    (process_documents_batch (fun _ => true) (fun _ => some ['x'])
        (fun _ => PyVal.str []) (fun _ => []) (fun _ => []) [['u']] []).1
      = [temp_name (fun _ => []) 1] ∧
    temp_name (fun _ => []) 1
      ∈ (process_documents_batch (fun _ => true) (fun _ => some ['x'])
          (fun _ => PyVal.str []) (fun _ => []) (fun _ => []) [['u']] []).1 := by
  constructor
  · rfl
  · decide

/-- Claim C6 (amended): process_documents_batch removes nothing on any path:
    afterwards the filesystem holds exactly the prior files plus one created
    temporary file per input item, on success and on download or extraction
    failure alike.  Removal happens only through the separate
    cleanup_temp_files method with the doc_*.pdf pattern, which then deletes
    every temporary file the batch created; no caller in the repository
    invokes it. -/
theorem temp_files_never_deleted (download : Nat → Bool)
    (extract : Nat → Option (List Char)) (product_name : Nat → PyVal)
    (ts sfx : Nat → List Char) (urls : List (List Char)) (fs : FS) :
    (process_documents_batch download extract product_name ts sfx urls fs).1
      = fs ++ (List.range urls.length).map (fun k => temp_name sfx (1 + k)) ∧
    cleanup_temp_files
        (process_documents_batch download extract product_name ts sfx urls fs).1
      = fs.filter (fun f => !glob_doc_pdf f) := by
  have h1 : (process_documents_batch download extract product_name ts sfx urls fs).1
      = fs ++ (List.range urls.length).map (fun k => temp_name sfx (1 + k)) :=
    process_items_fst download extract product_name ts sfx urls 1 fs
  refine ⟨h1, ?_⟩
  rw [h1, cleanup_temp_files, List.filter_append]
  have h2 : ((List.range urls.length).map (fun k => temp_name sfx (1 + k))).filter
      (fun f => !glob_doc_pdf f) = [] := by
    rw [List.filter_eq_nil_iff]
    intro a ha
    rw [List.mem_map] at ha
    obtain ⟨k, _, hk⟩ := ha
    rw [← hk]
    simp [glob_doc_pdf_temp_name]
  rw [h2, List.append_nil]

/-- Claim C10: add_embeddings_to_documents never mutates an input document:
    the store is only extended, every pre-existing document reads back
    unchanged, and each returned document is a fresh copy of its own input
    document with the content_vector key set, kept in the relative order of
    the inputs. -/
theorem add_embeddings_copies_documents (svc : List Char → Option (List ℚ))
    (store : Store) (refs : List Nat) (bsz : Nat) (hbsz : 0 < bsz)
    (hrefs : ∀ r ∈ refs, r < store.length) :
    (∃ ext, (add_embeddings_to_documents svc store refs bsz).1 = store ++ ext) ∧
    (∀ i, i < store.length →
      storeGet (add_embeddings_to_documents svc store refs bsz).1 i = storeGet store i) ∧
    ((add_embeddings_to_documents svc store refs bsz).2).map
        (fun r => storeGet (add_embeddings_to_documents svc store refs bsz).1 r)
      = refs.filterMap (fun r =>
          (embed_content_value svc (doc_content_val (storeGet store r))).map
            (fun e => dictInsert (storeGet store r) "content_vector" (PyVal.vec e))) := by
  have hbatch : generate_batch_embeddings_vals svc
      (refs.map (fun r => doc_content_val (storeGet store r))) bsz
      = (refs.map (fun r => doc_content_val (storeGet store r))).map
          (embed_content_value svc) :=
    generate_batch_aux_eq_map _ _ hbsz _ _ (Nat.le_refl _)
  have hpairs : refs.zip (generate_batch_embeddings_vals svc
      (refs.map (fun r => doc_content_val (storeGet store r))) bsz)
      = refs.map (fun r =>
          (r, embed_content_value svc (doc_content_val (storeGet store r)))) := by
    rw [hbatch, List.map_map, zip_self_map]
    rfl
  have hdef : add_embeddings_to_documents svc store refs bsz
      = add_embeddings_aux store (refs.map (fun r =>
          (r, embed_content_value svc (doc_content_val (storeGet store r))))) := by
    rw [add_embeddings_to_documents, hpairs]
  have hcond : ∀ p ∈ refs.map (fun r =>
      (r, embed_content_value svc (doc_content_val (storeGet store r)))),
      p.1 < store.length := by
    intro p hp
    rw [List.mem_map] at hp
    obtain ⟨r, hr, hpr⟩ := hp
    rw [← hpr]
    exact hrefs r hr
  obtain ⟨⟨ext, hext⟩, hmap⟩ := add_embeddings_aux_spec _ store hcond
  rw [hdef]
  refine ⟨⟨ext, hext⟩, ?_, ?_⟩
  · intro i hi
    rw [hext]
    exact storeGet_append_left store ext i hi
  · rw [hmap, List.filterMap_map]
    rfl

/-- Witness for C10 at a one-document store with a succeeding service. -/
theorem add_embeddings_copies_documents_witness :
    (storeGet (add_embeddings_to_documents (fun _ => some [(1 : ℚ)])
        [[("id", PyVal.str ['d']), ("content", PyVal.str ['h', 'i'])]] [0] 10).1 0
      = storeGet [[("id", PyVal.str ['d']), ("content", PyVal.str ['h', 'i'])]] 0) ∧
    (add_embeddings_to_documents (fun _ => some [(1 : ℚ)])
        [[("id", PyVal.str ['d']), ("content", PyVal.str ['h', 'i'])]] [0] 10).2 = [1] :=
  ⟨(add_embeddings_copies_documents (fun _ => some [(1 : ℚ)])
      [[("id", PyVal.str ['d']), ("content", PyVal.str ['h', 'i'])]] [0] 10
      (by decide) (by decide)).2.1 0 (by decide),
   by decide⟩

/-- Claim C5: for non-empty content and query, the contextual-snippet function
    locates the first case-insensitive occurrence of the query and returns the
    window of 75 characters (half the context length) on each side of it, with
    an ellipsis exactly on each side where the window stops short of a text
    boundary, and the produced snippet contains the query up to letter case;
    when the query is absent it falls back to the 150-character head of the
    content, with a closing ellipsis when the content is longer. -/
theorem extract_contextual_snippet_spec (content query : List Char)
    (hc : content ≠ []) (hq : query ≠ []) :
    (∀ idx, str_find (toLowerStr content) (toLowerStr query) = some idx →
      (extract_contextual_snippet content query 150 =
        (if 0 < idx - 75 then ellipsis else [])
          ++ (content.take (min content.length (idx + query.length + 75))).drop (idx - 75)
          ++ (if min content.length (idx + query.length + 75) < content.length
              then ellipsis else []) ∧
       containsSub (toLowerStr (extract_contextual_snippet content query 150))
         (toLowerStr query))) ∧
    (str_find (toLowerStr content) (toLowerStr query) = none →
      extract_contextual_snippet content query 150
        = if 150 < content.length then content.take 150 ++ ellipsis else content) := by
  have hce : content.isEmpty = false := by
    cases content with
    | nil => exact absurd rfl hc
    | cons a l => rfl
  have hqe : query.isEmpty = false := by
    cases query with
    | nil => exact absurd rfl hq
    | cons a l => rfl
  constructor
  · intro idx hfind
    obtain ⟨hocc, hbound⟩ := str_find_occurrence _ _ _ hfind
    have hLc : (toLowerStr content).length = content.length := by
      simp [toLowerStr]
    have hLq : (toLowerStr query).length = query.length := by
      simp [toLowerStr]
    rw [hLc, hLq] at hbound
    have hsnip : extract_contextual_snippet content query 150 =
        (if 0 < idx - 75 then ellipsis else [])
          ++ (content.take (min content.length (idx + query.length + 75))).drop (idx - 75)
          ++ (if min content.length (idx + query.length + 75) < content.length
              then ellipsis else []) := by
      rw [extract_contextual_snippet, hce, hqe]
      simp only [Bool.or_self, Bool.false_eq_true, if_false, hfind]
      by_cases h1 : 0 < idx - 150 / 2 <;>
        by_cases h2 : min content.length (idx + query.length + 150 / 2) < content.length <;>
          simp [h1, h2, List.append_assoc]
    refine ⟨hsnip, ?_⟩
    have hwin : ∃ p s,
        ((toLowerStr content).take (min content.length (idx + query.length + 75))).drop (idx - 75)
          = p ++ toLowerStr query ++ s := by
      apply take_drop_window _ _ idx
      · exact Nat.sub_le _ _
      · rw [hLq]
        refine Nat.le_min.mpr ⟨hbound, ?_⟩
        omega
      · exact hocc
    obtain ⟨p, s, hw⟩ := hwin
    rw [hsnip]
    refine ⟨toLowerStr (if 0 < idx - 75 then ellipsis else []) ++ p,
      s ++ toLowerStr (if min content.length (idx + query.length + 75) < content.length
        then ellipsis else []), ?_⟩
    simp only [toLowerStr, List.map_append] at hw ⊢
    rw [List.map_drop, List.map_take, hw]
    simp [List.append_assoc]
  · intro hfind
    rw [extract_contextual_snippet, hce, hqe]
    simp [hfind]

/-- Witness for C5 at the content and query of the specification example. -/
theorem extract_contextual_snippet_spec_witness :
    ("The quick brown fox jumps".toList ≠ ([] : List Char) ∧
     "brown".toList ≠ ([] : List Char)) ∧
    containsSub
      (toLowerStr (extract_contextual_snippet "The quick brown fox jumps".toList
        "brown".toList 150))
      (toLowerStr "brown".toList) :=
  ⟨⟨by decide, by decide⟩,
   ((extract_contextual_snippet_spec "The quick brown fox jumps".toList "brown".toList
      (by decide) (by decide)).1 10 (by decide)).2⟩

/-- Witness for C8 at a list with a padded, a null, a whitespace-only and two
    further entries. -/
theorem display_highlights_first3_trimmed_witness :
    display_highlights
        [some " a ".toList, none, some " ".toList, some "b".toList, some "c".toList]
      = ["a".toList] ∧
    (display_highlights
        [some " a ".toList, none, some " ".toList, some "b".toList, some "c".toList]).length ≤ 3 :=
  ⟨by decide, (display_highlights_first3_trimmed _).1⟩

/-- Helper: a text with a non-empty strip is itself non-empty. -/
theorem isEmpty_false_of_pyStrip (text : List Char)
    (h : (pyStrip text).isEmpty = false) : text.isEmpty = false := by
  cases text with
  | nil => simp [pyStrip] at h
  | cons a l => rfl

/-- Claim C3 counterexample: with a service answering the out-of-range
    one-component vector, generate_embedding returns that vector as a success
    even though validate_embedding rejects it, so the adapter does return
    vectors that violate the acceptance rule. -/
theorem generate_embedding_unvalidated_cex :
    generate_embedding (fun _ => some [(2000000 : ℚ)]) "hi".toList
      = some [(2000000 : ℚ)] ∧
    validate_embedding [(2000000 : ℚ)] = false := by
  decide

/-- Claim C3 (amended): generate_embedding passes the service vector through
    without validation — for any text with a non-empty strip it returns
    exactly what the service returns on the stripped truncated text — while
    validate_embedding, the helper encoding the acceptance rule (configured
    dimension and every component strictly inside the plus or minus one
    million range), is invoked by no caller in the repository. -/
theorem generate_embedding_unvalidated :
    (∀ (svc : List Char → Option (List ℚ)) (text : List Char),
      (pyStrip text).isEmpty = false →
      generate_embedding svc text = svc (pyStrip (truncate_text text 8191))) ∧
    (∀ e : List ℚ, validate_embedding e = true ↔
      (e ≠ [] ∧ e.length = vector_dimensions ∧
        ∀ v ∈ e, -1000000 < v ∧ v < 1000000)) := by
  constructor
  · intro svc text hne
    rw [generate_embedding, embedding_request_input,
      isEmpty_false_of_pyStrip text hne, hne]
    simp
  · intro e
    rw [validate_embedding]
    by_cases h1 : e.isEmpty
    · have : e = [] := by simpa using h1
      subst this
      simp
    · have hne : ¬e = [] := by simpa using h1
      by_cases h2 : e.length = vector_dimensions
      · simp [h1, h2, hne, saneComponent, List.any_eq_true]
      · simp [h1, h2, hne]

/-- Witness for the amended C3 at a plain short text and a constant service. -/
theorem generate_embedding_unvalidated_witness :
    ((pyStrip "hi".toList).isEmpty = false) ∧
    generate_embedding (fun _ => some [(1 : ℚ)]) "hi".toList
      = (fun _ => some [(1 : ℚ)]) (pyStrip (truncate_text "hi".toList 8191)) :=
  ⟨by decide, generate_embedding_unvalidated.1 _ _ (by decide)⟩

/-- Claim C4 counterexample: the text of one space and hi is at most 32764
    characters long, yet it is not submitted unchanged: the request input is
    the stripped form hi. -/
theorem embedding_input_stripped_cex :
    embedding_request_input " hi".toList = some "hi".toList ∧
    " hi".toList.length ≤ 8191 * 4 ∧
    "hi".toList ≠ " hi".toList := by
  decide

/-- Claim C4 (amended): the submitted embedding input is the truncated text
    stripped of surrounding whitespace: truncation takes the text unchanged at
    or below 32764 characters and exactly the 32764-character head above that,
    and the stripped result of either is what reaches the service — truncation
    still yields a successful submission, not a failure. -/
theorem truncate_then_strip_submission (text : List Char)
    (h : (pyStrip text).isEmpty = false) :
    embedding_request_input text = some (pyStrip (truncate_text text 8191)) ∧
    truncate_text text 8191
      = (if text.length ≤ 32764 then text else text.take 32764) ∧
    (32764 < text.length → (truncate_text text 8191).length = 32764) ∧
    (∀ (svc : List Char → Option (List ℚ)) (e : List ℚ),
      svc (pyStrip (truncate_text text 8191)) = some e →
      generate_embedding svc text = some e) := by
  refine ⟨?_, ?_, ?_, ?_⟩
  · rw [embedding_request_input, isEmpty_false_of_pyStrip text h, h]
    simp
  · rw [truncate_text]
  · intro hgt
    rw [truncate_text, if_neg (by omega), List.length_take]
    norm_num
    omega
  · intro svc e hsvc
    rw [generate_embedding, embedding_request_input,
      isEmpty_false_of_pyStrip text h, h]
    simpa using hsvc

/-- Witness for the amended C4 at the padded text of the counterexample. -/
theorem truncate_then_strip_submission_witness :
    ((pyStrip " hi".toList).isEmpty = false) ∧
    embedding_request_input " hi".toList
      = some (pyStrip (truncate_text " hi".toList 8191)) :=
  ⟨by decide, (truncate_then_strip_submission " hi".toList (by decide)).1⟩



